import Mathlib

/-!
Shallow embedding of `src/create-facade.tsx` (the current recursive-proxy
variant of `createFacade`) from the react-facade repository, together with
theorems settling the specification claims about it.

The embedding models:
  * JavaScript run-time values reachable from an implementation object
    (`JSValue`): functions are represented symbolically by an id, and a
    separate semantics function maps (function id, receiver, arguments) to
    a result value;
  * the recursive proxy returned by `createRecursiveProxy` as a store of
    nodes, each holding its `keyPath` and its `keyCache` (`ProxyStore`,
    `proxyGet`, and the remaining trap functions);
  * the `apply` trap's dispatch walk (`hookApply` / `walkApply`), including
    the three invariant messages it can raise;
  * the `ImplementationProvider` component's render as a function of the
    enclosing context value, the stored `useRef` value and the incoming
    `implementation` prop (`ImplementationProvider`), with `__UNSAFE_Partial`
    delegating to it exactly as in the source.
-/

/-- Run-time JavaScript values reachable from an implementation object.
A function is identified by a numeric id; its behaviour is supplied
externally by a semantics function when a dispatch is run. -/
inductive JSValue where
  | vfunc : Nat → JSValue
  | vobj : List (String × JSValue) → JSValue
  | vnum : Int → JSValue
  | vstr : String → JSValue
  | vbool : Bool → JSValue

/-- Property read `target[key]`: own-property lookup on a plain object;
`undefined` (modelled as `none`) on every other value. -/
def getField : JSValue → String → Option JSValue
  | .vobj fields, key => (fields.find? (fun e => e.1 == key)).map (fun e => e.2)
  | _, _ => none

/-- True exactly when `typeof v === "function"`. -/
def isFunc : JSValue → Bool
  | .vfunc _ => true
  | _ => false

/-- Pure walk of a key path through a value, `some` when every step is
defined (used to state hypotheses about dispatch inputs). -/
def walkPath (v : JSValue) : List String → Option JSValue
  | [] => some v
  | k :: ks =>
    match getField v k with
    | none => none
    | some w => walkPath w ks

/-- Dotted join of a key path, as produced by `keyPath.join(".")`. -/
def joinDot (l : List String) : String := String.intercalate "." l

/-- The string `Context.displayName` from the source. -/
def contextDisplayName (dn : String) : String :=
  "ImplementationProviderContext(" ++ dn ++ ")"

/-- The string `ImplementationProvider.displayName` from the source. -/
def providerDisplayName (dn : String) : String :=
  "ImplementationProvider(" ++ dn ++ ")"

/-- Message of the invariant guarding against a provider nested inside
another provider of the same facade. -/
def nestedProviderMsg (dn : String) : String :=
  providerDisplayName dn ++ " should not be rendered inside of another " ++
    providerDisplayName dn ++ "."

/-- Message of the strict-mode invariant. -/
def strictModeMsg (dn : String) : String :=
  contextDisplayName dn ++
    " unexpectedly received a new implementation. This is not allowed in strict mode. To disable this error use the option \"strict: false\"."

/-- Message of the invariant raised when no provider is in scope. -/
def noBindingMsg (dn : String) (keyPath : List String) : String :=
  "Component using \"" ++ joinDot keyPath ++ "\" must be wrapped in provider " ++
    contextDisplayName dn

/-- Message of the invariant raised when a walked segment is undefined. -/
def missingHookMsg (dn : String) (currentPath : List String) : String :=
  contextDisplayName dn ++ " does not provide a hook named \"" ++
    joinDot currentPath ++ "\""

/-- Message of the invariant raised when the resolved value is not a
function. -/
def notFunctionMsg (dn : String) (currentPath : List String) : String :=
  contextDisplayName dn ++ " provides a value \"" ++ joinDot currentPath ++
    "\" but it is not a function."

/-- Outcome of the `apply` trap: one constructor per invariant that can
fire, plus the final `target.apply(thisArg, args)` call described by the
resolved function id, the receiver and the arguments. -/
inductive DispatchResult where
  | noBinding : String → DispatchResult
  | missingCapability : String → DispatchResult
  | notCallable : String → DispatchResult
  | invoke : Nat → Option JSValue → List JSValue → DispatchResult

/-- The `for (const key of keyPath)` loop of the `apply` trap followed by
the final callability check: `target` and `thisArg` are the loop variables,
`currentPath` the pushed-so-far path, `rest` the keys still to walk. -/
def walkApply (dn : String) (target : JSValue) (thisArg : Option JSValue)
    (currentPath : List String) (rest : List String) (args : List JSValue) :
    DispatchResult :=
  match rest with
  | [] =>
    match target with
    | .vfunc fid => .invoke fid thisArg args
    | _ => .notCallable (notFunctionMsg dn currentPath)
  | key :: rest2 =>
    match getField target key with
    | none => .missingCapability (missingHookMsg dn (currentPath ++ [key]))
    | some next => walkApply dn next (some target) (currentPath ++ [key]) rest2 args

/-- The `apply` trap of the recursive proxy: read the context (the binding
in effect, `none` when outside every provider), then walk the key path
starting from the concrete implementation with `thisArg` undefined. -/
def hookApply (dn : String) (binding : Option JSValue) (keyPath : List String)
    (args : List JSValue) : DispatchResult :=
  match binding with
  | none => .noBinding (noBindingMsg dn keyPath)
  | some concrete => walkApply dn concrete none [] keyPath args

/-- Run a dispatch to completion under a semantics for function ids:
`target.apply(thisArg, args)` becomes `sem fid thisArg args`; every fired
invariant becomes an error carrying its message. -/
def runDispatch (sem : Nat → Option JSValue → List JSValue → JSValue)
    (dn : String) (binding : Option JSValue) (keyPath : List String)
    (args : List JSValue) : Except String JSValue :=
  match hookApply dn binding keyPath args with
  | .noBinding m => .error m
  | .missingCapability m => .error m
  | .notCallable m => .error m
  | .invoke fid self as => .ok (sem fid self as)

/-- One node of the recursive proxy: its `keyPath` and its `keyCache`
mapping a key to the node id of the memoized child handle. -/
structure ProxyNode where
  keyPath : List String
  keyCache : List (String × Nat)

/-- Store of every proxy node created so far; a handle's JavaScript
reference identity is its node id. -/
structure ProxyStore where
  nextId : Nat
  nodes : Nat → Option ProxyNode

/-- Allocate a fresh node in the store, returning its id. -/
def storeAlloc (st : ProxyStore) (node : ProxyNode) : Nat × ProxyStore :=
  (st.nextId,
    ⟨st.nextId + 1, fun m => if m = st.nextId then some node else st.nodes m⟩)

/-- Overwrite the node held at an existing id. -/
def storeSet (st : ProxyStore) (nid : Nat) (node : ProxyNode) : ProxyStore :=
  ⟨st.nextId, fun m => if m = nid then some node else st.nodes m⟩

/-- The source's `createRecursiveProxy(keyPath)`: a fresh proxy node with
the given path and an empty `keyCache`. -/
def createRecursiveProxy (st : ProxyStore) (keyPath : List String) :
    Nat × ProxyStore :=
  storeAlloc st ⟨keyPath, []⟩

/-- The `get` trap: answer from `keyCache` when the key is present,
otherwise create the child handle for `keyPath ++ [key]`, record it in the
cache, and return it. -/
def proxyGet (st : ProxyStore) (nid : Nat) (key : String) : Nat × ProxyStore :=
  match st.nodes nid with
  | none => (nid, st)
  | some node =>
    match node.keyCache.find? (fun e => e.1 == key) with
    | some e => (e.2, st)
    | none =>
      let hook := createRecursiveProxy st (node.keyPath ++ [key])
      (hook.1,
        storeSet hook.2 nid ⟨node.keyPath, node.keyCache ++ [(key, hook.1)]⟩)

/-- The `has` trap: always false. -/
def proxyHas (_st : ProxyStore) (_nid : Nat) (_key : String) : Bool := false

/-- The `ownKeys` trap: always the empty list. -/
def proxyOwnKeys (_st : ProxyStore) (_nid : Nat) : List String := []

/-- The `getOwnPropertyDescriptor` trap: always undefined. -/
def proxyGetOwnPropertyDescriptor (_st : ProxyStore) (_nid : Nat)
    (_key : String) : Option Unit := none

/-- The `getPrototypeOf` trap: always null. -/
def proxyGetPrototypeOf (_st : ProxyStore) (_nid : Nat) : Option JSValue := none

/-- The `preventExtensions` trap: reports success without changing
anything. -/
def proxyPreventExtensions (_st : ProxyStore) (_nid : Nat) : Bool := true

/-- The `isExtensible` trap: always false. -/
def proxyIsExtensible (_st : ProxyStore) (_nid : Nat) : Bool := false

/-- The `set` trap: refuses the assignment and leaves the store
untouched. -/
def proxySet (st : ProxyStore) (_nid : Nat) (_key : String) (_v : JSValue) :
    Bool × ProxyStore := (false, st)

/-- The `deleteProperty` trap: refuses the deletion and leaves the store
untouched. -/
def proxyDeleteProperty (st : ProxyStore) (_nid : Nat) (_key : String) :
    Bool × ProxyStore := (false, st)

/-- A JavaScript object reference: reference identity (`===`) is id
equality, `val` is the referenced value. -/
structure Ref where
  id : Nat
  val : JSValue

/-- The options record accepted by `createFacade`. -/
structure Options where
  displayName : Option String
  strict : Option Bool

/-- Resolution `options.displayName ?? "Facade"` from the source. -/
def createFacadeDisplayName (o : Options) : String :=
  o.displayName.getD "Facade"

/-- Resolution `options.strict ?? true` from the source. -/
def createFacadeStrict (o : Options) : Bool :=
  o.strict.getD true

/-- Outcome of one render of the provider component. -/
inductive MountResult where
  | alreadyBound : String → MountResult
  | strictViolation : String → MountResult
  | mounted : Ref → MountResult

/-- True exactly on the nested-provider failure. -/
def MountResult.isAlreadyBound : MountResult → Bool
  | .alreadyBound _ => true
  | _ => false

/-- One render of `ImplementationProvider`: `parent` is the context value
read by `useContext` (set by an enclosing provider of the same facade),
`refCurrent` the value held by `implementationRef` (`none` on the first
render, when `useRef` initializes it to the incoming prop), `impl` the
`implementation` prop. On success the context is provided the incoming
prop. -/
def ImplementationProvider (dn : String) (strict : Bool)
    (parent : Option Ref) (refCurrent : Option Ref) (impl : Ref) :
    MountResult :=
  match parent with
  | some _ => .alreadyBound (nestedProviderMsg dn)
  | none =>
    let r := refCurrent.getD impl
    if strict && (r.id != impl.id) then .strictViolation (strictModeMsg dn)
    else .mounted impl

/-- The source's `ImplementationProvider.__UNSAFE_Partial`: it renders
`ImplementationProvider` with the partial implementation as the prop,
nothing more. -/
def UNSAFE_Partial (dn : String) (strict : Bool) (parent : Option Ref)
    (refCurrent : Option Ref) (impl : Ref) : MountResult :=
  ImplementationProvider dn strict parent refCurrent impl

/-- Per-facade context environment: each `createFacade` call creates its
own `React.createContext`, so the binding in effect is a function of the
facade's identity. -/
def Scope := Nat → Option Ref

/-- Environment inside a provider of facade `f` that supplied `r`. -/
def scopeBind (s : Scope) (f : Nat) (r : Ref) : Scope :=
  fun g => if g = f then some r else s g

/-- First render of facade `f`'s root provider in environment `s`. -/
def mountRootIn (s : Scope) (f : Nat) (dn : String) (strict : Bool)
    (impl : Ref) : MountResult :=
  ImplementationProvider dn strict (s f) none impl

/-- Helper: appending past a list in which the predicate never fired. -/
lemma find?_append_none {α : Type} (p : α → Bool) (l1 l2 : List α)
    (h : l1.find? p = none) : (l1 ++ l2).find? p = l2.find? p := by
  induction l1 with
  | nil => rfl
  | cons a t ih =>
    cases hp : p a with
    | true =>
      rw [List.find?_cons_of_pos _ hp] at h
      exact absurd h (by simp)
    | false =>
      rw [List.find?_cons_of_neg _ (by simp [hp])] at h
      rw [List.cons_append, List.find?_cons_of_neg _ (by simp [hp])]
      exact ih h

/-- Helper: if walking `p` from `target` lands on `o`, and `o[k]` is the
function `fid`, then the apply-loop on `p ++ [k]` invokes `fid` with
receiver `o` (the value one level up the walked path). -/
lemma walkApply_resolves_func (dn : String) (args : List JSValue) (k : String)
    (fid : Nat) (o : JSValue) :
    ∀ (p : List String) (target : JSValue) (thisArg : Option JSValue)
      (cur : List String),
      walkPath target p = some o → getField o k = some (.vfunc fid) →
      walkApply dn target thisArg cur (p ++ [k]) args = .invoke fid (some o) args := by
  intro p
  induction p with
  | nil =>
    intro target thisArg cur hw hk
    have ht : target = o := by
      simpa [walkPath] using hw
    subst ht
    simp [walkApply, hk]
  | cons q qs ih =>
    intro target thisArg cur hw hk
    cases hg : getField target q with
    | none => rw [walkPath, hg] at hw; exact absurd hw (by simp)
    | some w =>
      rw [walkPath, hg] at hw
      rw [List.cons_append]
      show walkApply dn target thisArg cur (q :: (qs ++ [k])) args = _
      rw [walkApply, hg]
      exact ih w (some target) (cur ++ [q]) hw hk

/-- Helper: if walking `p` from `target` lands on `o` and `o[k]` is
undefined, the apply-loop on `p ++ k :: rest` fails with the missing-hook
message naming the dotted path walked so far, `k` included. -/
lemma walkApply_missing (dn : String) (args : List JSValue) (k : String)
    (rest : List String) (o : JSValue) :
    ∀ (p : List String) (target : JSValue) (thisArg : Option JSValue)
      (cur : List String),
      walkPath target p = some o → getField o k = none →
      walkApply dn target thisArg cur (p ++ k :: rest) args =
        .missingCapability (missingHookMsg dn (cur ++ p ++ [k])) := by
  intro p
  induction p with
  | nil =>
    intro target thisArg cur hw hk
    have ht : target = o := by
      simpa [walkPath] using hw
    subst ht
    simp [walkApply, hk]
  | cons q qs ih =>
    intro target thisArg cur hw hk
    cases hg : getField target q with
    | none => rw [walkPath, hg] at hw; exact absurd hw (by simp)
    | some w =>
      rw [walkPath, hg] at hw
      rw [List.cons_append]
      show walkApply dn target thisArg cur (q :: (qs ++ k :: rest)) args = _
      rw [walkApply, hg]
      exact (ih w (some target) (cur ++ [q]) hw hk).trans (by simp)

/-- Helper: if walking the whole path lands on a non-function value, the
apply-loop fails with the not-a-function message naming the full dotted
path. -/
lemma walkApply_notCallable (dn : String) (args : List JSValue) (v : JSValue) :
    ∀ (p : List String) (target : JSValue) (thisArg : Option JSValue)
      (cur : List String),
      walkPath target p = some v → isFunc v = false →
      walkApply dn target thisArg cur p args =
        .notCallable (notFunctionMsg dn (cur ++ p)) := by
  intro p
  induction p with
  | nil =>
    intro target thisArg cur hw hv
    have ht : target = v := by
      simpa [walkPath] using hw
    subst ht
    cases target with
    | vfunc fid => simp [isFunc] at hv
    | vobj fields => simp [walkApply]
    | vnum n => simp [walkApply]
    | vstr s => simp [walkApply]
    | vbool b => simp [walkApply]
  | cons q qs ih =>
    intro target thisArg cur hw hv
    cases hg : getField target q with
    | none => rw [walkPath, hg] at hw; exact absurd hw (by simp)
    | some w =>
      rw [walkPath, hg] at hw
      rw [walkApply, hg]
      exact (ih w (some target) (cur ++ [q]) hw hv).trans (by simp)

/-- C4: for a leaf capability path whose full walk resolves to a function,
the dispatch invokes that function with exactly the given arguments, with
the object one level up the walked path as its receiver, and returns the
function's result unchanged. -/
theorem c4_dispatch_receiver_and_result (dn : String)
    (sem : Nat → Option JSValue → List JSValue → JSValue)
    (concrete o : JSValue) (p : List String) (k : String) (fid : Nat)
    (args : List JSValue)
    (hw : walkPath concrete p = some o)
    (hk : getField o k = some (.vfunc fid)) :
    hookApply dn (some concrete) (p ++ [k]) args = .invoke fid (some o) args ∧
    runDispatch sem dn (some concrete) (p ++ [k]) args =
      .ok (sem fid (some o) args) := by
  have h2 : hookApply dn (some concrete) (p ++ [k]) args =
      .invoke fid (some o) args :=
    walkApply_resolves_func dn args k fid o p concrete none [] hw hk
  exact ⟨h2, by simp [runDispatch, h2]⟩

/-- Implementation used to exercise C4: a nested namespace, so that the
receiver of the leaf call is the nested object, not the root. -/
def implNested : JSValue :=
  .vobj [("useAString", .vfunc 0),
         ("nested", .vobj [("useABoolean", .vfunc 7)])]

/-- Witness for C4 at the nested path `nested.useABoolean`. -/
theorem c4_witness :
    walkPath implNested ["nested"] = some (.vobj [("useABoolean", .vfunc 7)]) ∧
    getField (.vobj [("useABoolean", .vfunc 7)]) "useABoolean" =
      some (.vfunc 7) ∧
    (hookApply "Facade" (some implNested) ["nested", "useABoolean"] [] =
       .invoke 7 (some (.vobj [("useABoolean", .vfunc 7)])) [] ∧
     runDispatch (fun _ _ _ => .vbool true) "Facade" (some implNested)
       ["nested", "useABoolean"] [] = .ok (.vbool true)) :=
  ⟨rfl, rfl,
   c4_dispatch_receiver_and_result "Facade" (fun _ _ _ => .vbool true)
     implNested (.vobj [("useABoolean", .vfunc 7)]) ["nested"] "useABoolean" 7
     [] rfl rfl⟩

/-- C6: when the walk reaches its first undefined segment, the call fails
with the missing-hook invariant whose message names the dotted path walked
so far, the failing segment included, inside the facade's context display
name. -/
theorem c6_missing_capability (dn : String) (concrete o : JSValue)
    (q : List String) (k : String) (rest : List String) (args : List JSValue)
    (hw : walkPath concrete q = some o) (hk : getField o k = none) :
    hookApply dn (some concrete) (q ++ k :: rest) args =
      .missingCapability (missingHookMsg dn (q ++ [k])) := by
  have h := walkApply_missing dn args k rest o q concrete none [] hw hk
  simpa using h

/-- Witness for C6: the end-to-end scenario of the spec, an implementation
from which `useAString` is absent. -/
theorem c6_witness :
    walkPath (.vobj [("useANumber", JSValue.vfunc 0)]) [] =
      some (.vobj [("useANumber", JSValue.vfunc 0)]) ∧
    getField (.vobj [("useANumber", JSValue.vfunc 0)]) "useAString" = none ∧
    hookApply "Facade" (some (.vobj [("useANumber", JSValue.vfunc 0)]))
        ["useAString"] [] =
      .missingCapability (missingHookMsg "Facade" ["useAString"]) :=
  ⟨rfl, rfl,
   c6_missing_capability "Facade" (.vobj [("useANumber", JSValue.vfunc 0)])
     (.vobj [("useANumber", JSValue.vfunc 0)]) [] "useAString" [] [] rfl rfl⟩

/-- C7: with no binding in effect, every capability call fails with the
no-provider invariant naming the full dotted path and the facade's context
display name, and no implementation function is dispatched. -/
theorem c7_no_binding (dn : String) (path : List String) (args : List JSValue)
    (sem : Nat → Option JSValue → List JSValue → JSValue) :
    hookApply dn none path args = .noBinding (noBindingMsg dn path) ∧
    runDispatch sem dn none path args = .error (noBindingMsg dn path) :=
  ⟨rfl, rfl⟩

/-- C9: when the full walk succeeds but lands on a non-function value, the
call fails with the not-a-function invariant naming the full dotted path
inside the facade's context display name, and the value is never invoked. -/
theorem c9_not_callable (dn : String)
    (sem : Nat → Option JSValue → List JSValue → JSValue)
    (concrete v : JSValue) (path : List String) (args : List JSValue)
    (hw : walkPath concrete path = some v) (hf : isFunc v = false) :
    hookApply dn (some concrete) path args =
      .notCallable (notFunctionMsg dn path) ∧
    runDispatch sem dn (some concrete) path args =
      .error (notFunctionMsg dn path) := by
  have h : hookApply dn (some concrete) path args =
      .notCallable (notFunctionMsg dn path) := by
    have h0 := walkApply_notCallable dn args v path concrete none [] hw hf
    simpa using h0
  exact ⟨h, by simp [runDispatch, h]⟩

/-- Witness for C9: the test scenario where `useD` is the number 400. -/
theorem c9_witness :
    walkPath (.vobj [("useD", JSValue.vnum 400)]) ["useD"] =
      some (.vnum 400) ∧
    isFunc (.vnum 400) = false ∧
    hookApply "Facade" (some (.vobj [("useD", JSValue.vnum 400)])) ["useD"] [] =
      .notCallable (notFunctionMsg "Facade" ["useD"]) :=
  ⟨rfl, rfl,
   (c9_not_callable "Facade" (fun _ _ _ => .vnum 0)
     (.vobj [("useD", JSValue.vnum 400)]) (.vnum 400) ["useD"] [] rfl rfl).1⟩

/-- C10: every handle node, at every path, rejects assignment, deletion
and extension without changing anything, and reports no own properties, no
`in`-visible keys and no prototype. -/
theorem c10_handle_immutable (st : ProxyStore) (nid : Nat) (key : String)
    (v : JSValue) :
    proxySet st nid key v = (false, st) ∧
    proxyDeleteProperty st nid key = (false, st) ∧
    proxyPreventExtensions st nid = true ∧
    proxyIsExtensible st nid = false ∧
    proxyHas st nid key = false ∧
    proxyOwnKeys st nid = [] ∧
    proxyGetOwnPropertyDescriptor st nid key = none ∧
    proxyGetPrototypeOf st nid = none :=
  ⟨rfl, rfl, rfl, rfl, rfl, rfl, rfl, rfl⟩

/-- C3: a second `get` of the same key on the same handle node returns the
identical handle reference and leaves the store unchanged — each node
memoizes its child handles keyed by name, so `handle(p) === handle(p)` at
every path. -/
theorem c3_handle_identity (st : ProxyStore) (nid : Nat) (key : String)
    (node : ProxyNode) (h : st.nodes nid = some node) :
    proxyGet (proxyGet st nid key).2 nid key = proxyGet st nid key := by
  cases hf : node.keyCache.find? (fun e => e.1 == key) with
  | some e =>
    have h1 : proxyGet st nid key = (e.2, st) := by
      unfold proxyGet
      simp only [h, hf]
    rw [h1]
    exact h1
  | none =>
    have h1 : proxyGet st nid key =
        (st.nextId,
         storeSet (createRecursiveProxy st (node.keyPath ++ [key])).2 nid
           ⟨node.keyPath, node.keyCache ++ [(key, st.nextId)]⟩) := by
      unfold proxyGet
      simp only [h, hf]
      rfl
    generalize hst2 :
      storeSet (createRecursiveProxy st (node.keyPath ++ [key])).2 nid
        ⟨node.keyPath, node.keyCache ++ [(key, st.nextId)]⟩ = st2 at h1
    have hn : st2.nodes nid =
        some ⟨node.keyPath, node.keyCache ++ [(key, st.nextId)]⟩ := by
      rw [← hst2]
      simp [storeSet]
    have hfind :
        (node.keyCache ++ [(key, st.nextId)]).find? (fun e => e.1 == key) =
          some (key, st.nextId) := by
      rw [find?_append_none _ _ _ hf]
      simp [List.find?]
    have h2 : proxyGet st2 nid key = (st.nextId, st2) := by
      unfold proxyGet
      simp only [hn, hfind]
    rw [h1]
    exact h2

/-- Store holding just the root handle produced by `createRecursiveProxy`
with the empty path. -/
def rootStore : ProxyStore :=
  ⟨1, fun m => if m = 0 then some ⟨[], []⟩ else none⟩

/-- Witness for C3 at the root handle and the key `useCurrentUser`. -/
theorem c3_witness :
    rootStore.nodes 0 = some ⟨[], []⟩ ∧
    proxyGet (proxyGet rootStore 0 "useCurrentUser").2 0 "useCurrentUser" =
      proxyGet rootStore 0 "useCurrentUser" :=
  ⟨rfl, c3_handle_identity rootStore 0 "useCurrentUser" ⟨[], []⟩ rfl⟩

/-- C5: strict mode defaults to true when the option is omitted; with
strict mode on, a re-render of the root provider with a reference-distinct
implementation fails with the strict-mode invariant, structural equality of
the two objects notwithstanding; with strict mode off the re-render
succeeds, provides the new implementation to the context, and subsequent
calls dispatch into it. -/
theorem c5_strict_mode (o : Option String) (dn : String) (r1 r2 : Ref)
    (f : String) (fid : Nat) (args : List JSValue)
    (hne : r1.id ≠ r2.id) (hg : getField r2.val f = some (.vfunc fid)) :
    createFacadeStrict ⟨o, none⟩ = true ∧
    ImplementationProvider dn true none (some r1) r2 =
      .strictViolation (strictModeMsg dn) ∧
    ImplementationProvider dn false none (some r1) r2 = .mounted r2 ∧
    hookApply dn (some r2.val) [f] args = .invoke fid (some r2.val) args := by
  refine ⟨rfl, ?_, rfl, ?_⟩
  · have hbne : (r1.id != r2.id) = true := by simpa using hne
    simp [ImplementationProvider, hbne]
  · exact walkApply_resolves_func dn args f fid r2.val [] r2.val none [] rfl hg

/-- Structurally identical implementation value used by the C5 witness. -/
def implAddThree : JSValue := .vobj [("useAddThree", .vfunc 3)]

/-- Witness for C5: two reference-distinct but structurally identical
implementation objects. -/
theorem c5_witness :
    (0 : Nat) ≠ 1 ∧
    getField implAddThree "useAddThree" = some (.vfunc 3) ∧
    (createFacadeStrict ⟨some "Facade", none⟩ = true ∧
     ImplementationProvider "Facade" true none (some ⟨0, implAddThree⟩)
         ⟨1, implAddThree⟩ = .strictViolation (strictModeMsg "Facade") ∧
     ImplementationProvider "Facade" false none (some ⟨0, implAddThree⟩)
         ⟨1, implAddThree⟩ = .mounted ⟨1, implAddThree⟩ ∧
     hookApply "Facade" (some implAddThree) ["useAddThree"] [] =
       .invoke 3 (some implAddThree) []) :=
  ⟨by decide, rfl,
   c5_strict_mode (some "Facade") "Facade" ⟨0, implAddThree⟩ ⟨1, implAddThree⟩
     "useAddThree" 3 [] (by decide) rfl⟩

/-- C8: mounting a root provider fails with the nested-provider invariant
exactly when a binding of the same facade is already in effect, whatever
the new implementation holds; a different facade reads its own context, so
its root mounts cleanly inside the first facade's binding. -/
theorem c8_already_bound (dn dn2 : String) (strict strict2 : Bool)
    (s s0 : Scope) (f g : Nat) (r impl0 impl1 impl2 : Ref)
    (hf : s f = some r) (hg : s g = none) (hne : g ≠ f) :
    mountRootIn s f dn strict impl0 = .alreadyBound (nestedProviderMsg dn) ∧
    (mountRootIn s0 f dn strict impl1).isAlreadyBound = (s0 f).isSome ∧
    mountRootIn (scopeBind s f r) g dn2 strict2 impl2 = .mounted impl2 := by
  refine ⟨?_, ?_, ?_⟩
  · simp [mountRootIn, ImplementationProvider, hf]
  · cases h0 : s0 f with
    | none =>
      simp [mountRootIn, ImplementationProvider, h0, MountResult.isAlreadyBound]
    | some rr =>
      simp [mountRootIn, ImplementationProvider, h0, MountResult.isAlreadyBound]
  · have hb : scopeBind s f r g = none := by simp [scopeBind, hne, hg]
    simp [mountRootIn, ImplementationProvider, hb]

/-- Environment used by the C8 witness: facade 0 already bound, facade 1
unbound. -/
def scopeW : Scope := fun n => if n = 0 then some ⟨0, .vobj []⟩ else none

/-- Witness for C8: a second root of facade 0 with an empty implementation
object fails inside the first; a root of facade 1 mounts there cleanly. -/
theorem c8_witness :
    scopeW 0 = some ⟨0, .vobj []⟩ ∧ scopeW 1 = none ∧ (1 : Nat) ≠ 0 ∧
    (mountRootIn scopeW 0 "Facade" true ⟨1, .vobj []⟩ =
       .alreadyBound (nestedProviderMsg "Facade") ∧
     (mountRootIn scopeW 0 "Facade" true ⟨2, .vobj []⟩).isAlreadyBound =
       (scopeW 0).isSome ∧
     mountRootIn (scopeBind scopeW 0 ⟨0, .vobj []⟩) 1 "Other" true
         ⟨3, .vobj [("useX", .vfunc 0)]⟩ =
       .mounted ⟨3, .vobj [("useX", .vfunc 0)]⟩) :=
  ⟨rfl, rfl, by decide,
   c8_already_bound "Facade" "Other" true true scopeW scopeW 0 1 ⟨0, .vobj []⟩
     ⟨1, .vobj []⟩ ⟨2, .vobj []⟩ ⟨3, .vobj [("useX", .vfunc 0)]⟩ rfl rfl
     (by decide)⟩

/-- Root implementation `{a, b}` from the C1 scenario. -/
def rootImplC1 : Ref := ⟨0, .vobj [("a", .vfunc 0), ("b", .vfunc 1)]⟩

/-- Override `{a: a2}` (a2 being function id 2) from the C1 scenario. -/
def overrideImplC1 : Ref := ⟨1, .vobj [("a", .vfunc 2)]⟩

/-- Override `{c: c2}` whose key `c` is absent from the root. -/
def unknownKeyImplC1 : Ref := ⟨2, .vobj [("c", .vfunc 3)]⟩

/-- C1 counterexample: `__UNSAFE_Partial` rendered inside the root binding
does not layer an override at all — it fails with the nested-provider
invariant, for the replacing override `{a: a2}` and for the unknown-key
override `{c: c2}` alike, so neither the claimed merged dispatch nor an
unknown-key failure ever happens. -/
theorem c1_counterexample :
    UNSAFE_Partial "Facade" true (some rootImplC1) none overrideImplC1 =
      .alreadyBound (nestedProviderMsg "Facade") ∧
    UNSAFE_Partial "Facade" true (some rootImplC1) none unknownKeyImplC1 =
      .alreadyBound (nestedProviderMsg "Facade") :=
  ⟨rfl, rfl⟩

/-- C1 as amended: `__UNSAFE_Partial` delegates verbatim to the root
provider, so inside an enclosing binding of the same facade it fails with
the nested-provider invariant whatever keys it carries; mounted outside any
binding it succeeds, and calls then resolve against the partial object
alone — a key it supplies dispatches to the supplied function, a key it
omits fails with the missing-hook invariant; no unknown-key check exists. -/
theorem c1_amended_override (dn : String) (strict : Bool) (parentImpl p : Ref)
    (refc : Option Ref) (ka kb : String) (fid : Nat) (args : List JSValue)
    (ha : getField p.val ka = some (.vfunc fid))
    (hb : getField p.val kb = none) :
    UNSAFE_Partial dn strict (some parentImpl) refc p =
      .alreadyBound (nestedProviderMsg dn) ∧
    UNSAFE_Partial dn strict none none p = .mounted p ∧
    hookApply dn (some p.val) [ka] args = .invoke fid (some p.val) args ∧
    hookApply dn (some p.val) [kb] args =
      .missingCapability (missingHookMsg dn [kb]) := by
  refine ⟨rfl, ?_, ?_, ?_⟩
  · simp [UNSAFE_Partial, ImplementationProvider]
  · exact walkApply_resolves_func dn args ka fid p.val [] p.val none [] rfl ha
  · exact walkApply_missing dn args kb [] p.val [] p.val none [] rfl hb

/-- Witness for the amended C1, on the `{a: a2}` override mounted both
inside the root (failure) and standalone (success, with `a` dispatching to
a2 = function id 2 and `b` missing). -/
theorem c1_witness :
    getField overrideImplC1.val "a" = some (.vfunc 2) ∧
    getField overrideImplC1.val "b" = none ∧
    (UNSAFE_Partial "Facade" true (some rootImplC1) none overrideImplC1 =
       .alreadyBound (nestedProviderMsg "Facade") ∧
     UNSAFE_Partial "Facade" true none none overrideImplC1 =
       .mounted overrideImplC1 ∧
     hookApply "Facade" (some overrideImplC1.val) ["a"] [] =
       .invoke 2 (some overrideImplC1.val) [] ∧
     hookApply "Facade" (some overrideImplC1.val) ["b"] [] =
       .missingCapability (missingHookMsg "Facade" ["b"])) :=
  ⟨rfl, rfl,
   c1_amended_override "Facade" true rootImplC1 overrideImplC1 none "a" "b" 2
     [] rfl rfl⟩

/-- Implementation whose `useD` member is the number 400, from the type
checking test scenario. -/
def implC2 : Ref := ⟨0, .vobj [("useD", .vnum 400), ("useE", .vfunc 0)]⟩

/-- C2 counterexample: mounting the root provider with a non-function
member succeeds — no validation runs at mount time — and the non-function
value is only rejected later, when a capability call's walk resolves to it. -/
theorem c2_counterexample :
    ImplementationProvider "Facade" true none none implC2 = .mounted implC2 ∧
    hookApply "Facade" (some implC2.val) ["useD"] [] =
      .notCallable (notFunctionMsg "Facade" ["useD"]) :=
  ⟨rfl, rfl⟩

/-- C2 as amended: the root provider performs no validation of the
implementation object at mount time — every mount outside an enclosing
binding succeeds — and a value that is not a function is detected only when
a capability call walks to it, failing then with the not-a-function
invariant naming the full dotted path. -/
theorem c2_no_mount_validation (dn : String) (strict : Bool) (impl : Ref)
    (path : List String) (v : JSValue) (args : List JSValue)
    (hw : walkPath impl.val path = some v) (hf : isFunc v = false) :
    ImplementationProvider dn strict none none impl = .mounted impl ∧
    hookApply dn (some impl.val) path args =
      .notCallable (notFunctionMsg dn path) := by
  constructor
  · simp [ImplementationProvider]
  · have h0 := walkApply_notCallable dn args v path impl.val none [] hw hf
    simpa using h0

/-- Witness for the amended C2 on the `useD = 400` implementation. -/
theorem c2_witness :
    walkPath implC2.val ["useD"] = some (.vnum 400) ∧
    isFunc (.vnum 400) = false ∧
    (ImplementationProvider "Facade" true none none implC2 = .mounted implC2 ∧
     hookApply "Facade" (some implC2.val) ["useD"] [] =
       .notCallable (notFunctionMsg "Facade" ["useD"])) :=
  ⟨rfl, rfl,
   c2_no_mount_validation "Facade" true implC2 ["useD"] (.vnum 400) [] rfl rfl⟩
